import Mathlib

/-!
# Verification of the MCP prompt server core

A shallow embedding of `src/mcp_server/mcp_prompt_server.py`: the name
validator `is_safe_task_name`, the catalog `get_available_prompts`, the
loader `read_prompt_content`, and the dispatcher `call_tool` /
`list_tools`.  The filesystem is modelled explicitly (`FS`): the prompts
directory either is absent / not a directory, or holds a list of
immediate-child entries, each with a name, a regular-file flag, a
readability flag (whether `open`/`read` succeeds without raising
`IOError`), and its text content (already decoded; the model works at the
level of decoded text).  Python exceptions raised and caught inside the
server become `Except` values.

Python string primitives are modelled structurally on the character list
(`String.data`), character for character — Python indexes and slices
strings by code point, which is exactly `String.data` here: `startswith`
is `strStartsWith`, the slice `name[n:]` is `dropChars name n`, Python
`sorted` on strings (lexicographic by code point) is
`List.insertionSort strLeR`.
-/

/-- Python `s.startswith(pre)`: `pre`'s characters are an initial segment
of `s`'s. -/
def strStartsWith (s p : String) : Bool := p.data.isPrefixOf s.data

/-- The Python slice `s[n:]` (strings are indexed by code point). -/
def dropChars (s : String) (n : Nat) : String := String.mk (s.data.drop n)

/-- Python `sorted`'s string comparison, lexicographic by code point:
`charListLe as bs` is `as ≤ bs`. -/
def charListLe : List Char → List Char → Bool
  | [], _ => true
  | _ :: _, [] => false
  | a :: as, b :: bs => if a < b then true else if b < a then false else charListLe as bs

/-- `a ≤ b` for Python's string ordering. -/
def strLe (a b : String) : Bool := charListLe a.data b.data

/-- `strLe` as a relation, the order `sorted(prompt_files)` sorts by. -/
def strLeR (a b : String) : Prop := strLe a b = true

instance : DecidableRel strLeR := fun a b => instDecidableEqBool (strLe a b) true

/-- One character of the class `[a-zA-Z0-9_]` of the validator's regex. -/
def isWordChar (c : Char) : Bool :=
  ('a' ≤ c && c ≤ 'z') || ('A' ≤ c && c ≤ 'Z') || ('0' ≤ c && c ≤ '9') || c == '_'

/-- Python's `".." in task_name`: two consecutive dots occur in the
character list. -/
def hasDotDot : List Char → Bool
  | [] => false
  | [_] => false
  | c₁ :: c₂ :: rest => (c₁ == '.' && c₂ == '.') || hasDotDot (c₂ :: rest)

/-- `is_safe_task_name` of the source: false for the empty string
(`if not task_name`), true when `re.fullmatch(r"[a-zA-Z0-9_]+", task_name)`
succeeds and `".." not in task_name`, false otherwise.  On a string already
known non-empty, `fullmatch` of `[a-zA-Z0-9_]+` holds exactly when every
character is in the class. -/
def is_safe_task_name (task_name : String) : Bool :=
  if task_name.isEmpty then false
  else if task_name.data.all isWordChar && !hasDotDot task_name.data then true
  else false

/-- One immediate child of the prompts directory: its entry name (for
example `"create_prd.txt"`), whether it is a regular file, whether opening
and reading it succeeds (no `IOError`), and its decoded text content. -/
structure DirEntry where
  name : String
  isFile : Bool
  readable : Bool
  content : String
  deriving DecidableEq

/-- The state of `PROMPTS_DIR`: whether the path exists, whether it is a
directory, and its immediate children (empty when the path is absent or
not a directory). -/
structure FS where
  dirExists : Bool
  dirIsDir : Bool
  entries : List DirEntry
  deriving DecidableEq

/-- The entry names `glob`'s `*` never matches: dotfiles, names starting
with `.`. -/
def isHiddenName (name : String) : Bool :=
  match name.data with
  | [] => false
  | c :: _ => c == '.'

/-- The name pattern of `glob("*.txt")`: the last four characters are
`.txt`. -/
def endsWithTxt (name : String) : Bool := ['.', 't', 'x', 't'].isSuffixOf name.data

/-- `PROMPTS_DIR.glob("*.txt")`: the immediate children whose name ends in
`.txt` and does not start with a dot.  Note glob matches any entry with
such a name, directories included — it does not test for regular files. -/
def globTxt (entries : List DirEntry) : List DirEntry :=
  entries.filter (fun e => endsWithTxt e.name && !isHiddenName e.name)

/-- `Path.stem` on the names `glob("*.txt")` yields: every such name ends
in the four characters `.txt` and does not start with a dot, so its stem
(the name with its last extension removed) is the name minus its last
four characters. -/
def stem (name : String) : String := String.mk (name.data.take (name.data.length - 4))

/-- `get_available_prompts` of the source: empty when `PROMPTS_DIR` does
not exist or is not a directory; otherwise the stems of the `*.txt`
children that pass `is_safe_task_name`, sorted (Python `sorted`,
lexicographic ascending by code point). -/
def get_available_prompts (fs : FS) : List String :=
  if fs.dirExists && fs.dirIsDir then
    List.insertionSort strLeR
      (((globTxt fs.entries).map (fun e => stem e.name)).filter is_safe_task_name)
  else []

/-- The Resource Catalog as claim C3 words it: the base names
(extension stripped) of the immediate-child `.txt` *files* — regular
files only — that pass the Name Validator, sorted ascending; empty when
the directory is absent or not a directory. -/
def catalog_spec_files (fs : FS) : List String :=
  if fs.dirExists && fs.dirIsDir then
    List.insertionSort strLeR
      (((fs.entries.filter (fun e => e.isFile && endsWithTxt e.name)).map
          (fun e => stem e.name)).filter is_safe_task_name)
  else []

/-- The catalog as amended: the base names of the immediate-child `.txt`
entries of any kind (regular files or not), validator-filtered and
sorted. -/
def catalog_spec_entries (fs : FS) : List String :=
  if fs.dirExists && fs.dirIsDir then
    List.insertionSort strLeR
      (((fs.entries.filter (fun e => endsWithTxt e.name)).map
          (fun e => stem e.name)).filter is_safe_task_name)
  else []

/-- The kind of exception `read_prompt_content` raises: `ValueError`
(invalid task name), `FileNotFoundError`, or `IOError`. -/
inductive LoadErrorKind where
  | invalidName
  | notFound
  | ioError
  deriving DecidableEq

/-- The message carried by each exception `read_prompt_content` raises. -/
def loadErrorMessage (k : LoadErrorKind) (task_name : String) : String :=
  match k with
  | .invalidName => "Invalid task name: " ++ task_name
  | .notFound => "Prompt not found for task: " ++ task_name
  | .ioError => "Error reading prompt file for task: " ++ task_name

/-- The directory entry at path `PROMPTS_DIR / (task_name ++ ".txt")`, if
any. -/
def fileLookup (fs : FS) (task_name : String) : Option DirEntry :=
  fs.entries.find? (fun e => e.name == task_name ++ ".txt")

/-- `read_prompt_content` of the source: raise `ValueError` when the name
fails the validator (before any filesystem access); raise
`FileNotFoundError` when the path does not exist or is not a regular file;
then open and read, raising `IOError` when the read fails; otherwise
return the file's text. -/
def read_prompt_content (fs : FS) (task_name : String) : Except LoadErrorKind String :=
  if !is_safe_task_name task_name then
    .error .invalidName
  else
    match fileLookup fs task_name with
    | none => .error .notFound
    | some e =>
      if !e.isFile then .error .notFound
      else if e.readable then .ok e.content
      else .error .ioError

/-- One `TextContent(type="text", text=...)` block of a tool-call
response. -/
structure TextContent where
  type : String
  text : String
  deriving DecidableEq

/-- The text of the `list_available_prompts` response. -/
def listAvailableText (fs : FS) : String :=
  let available_prompts := get_available_prompts fs
  let prompt_list := String.intercalate "\n" (available_prompts.map (fun p => "- " ++ p))
  "Available prompts:\n" ++ prompt_list ++
    "\n\nUse 'get_prompt_by_name' with the task_name parameter, or use the specific 'get_prompt_[name]' tools to fetch individual prompts."

/-- The `try: read_prompt_content ... except (ValueError, FileNotFoundError,
IOError)` block that both fetch branches of `call_tool` contain verbatim:
on success the content under a `Prompt for '{task_name}':` header, on a
caught exception `Error: {str(e)}`. -/
def fetchPromptText (fs : FS) (task_name : String) : List TextContent :=
  match read_prompt_content fs task_name with
  | .ok prompt_content =>
      [⟨"text", "Prompt for '" ++ task_name ++ "':\n\n" ++ prompt_content⟩]
  | .error e => [⟨"text", "Error: " ++ loadErrorMessage e task_name⟩]

/-- The body of `call_tool`'s `try:` block.  `arguments` is the request's
argument dictionary, modelled as an association list; `arguments.get` is
`List.lookup`.  The result is `Except String _` because in Python any
uncaught exception would propagate to the surrounding handler; in this
embedding every branch in fact returns normally. -/
def call_tool_body (fs : FS) (name : String) (arguments : List (String × String)) :
    Except String (List TextContent) :=
  if name == "list_available_prompts" then
    .ok [⟨"text", listAvailableText fs⟩]
  else if name == "get_prompt_by_name" then
    match arguments.lookup "task_name" with
    | none => .ok [⟨"text", "Error: task_name parameter is required"⟩]
    | some task_name =>
      if task_name == "" then .ok [⟨"text", "Error: task_name parameter is required"⟩]
      else .ok (fetchPromptText fs task_name)
  else if strStartsWith name "get_prompt_" then
    .ok (fetchPromptText fs (dropChars name "get_prompt_".length))
  else
    .ok [⟨"text", "Error: Unknown tool '" ++ name ++ "'"⟩]

/-- `call_tool`'s outermost `except Exception as e:` handler: a normal
result passes through, an escaped exception becomes the
`Unexpected error: {message}` text. -/
def dispatcher_boundary (r : Except String (List TextContent)) : List TextContent :=
  match r with
  | .ok res => res
  | .error msg => [⟨"text", "Unexpected error: " ++ msg⟩]

/-- `call_tool` of the source: the `try:` body wrapped in the
catch-all boundary. -/
def call_tool (fs : FS) (name : String) (arguments : List (String × String)) :
    List TextContent :=
  dispatcher_boundary (call_tool_body fs name arguments)

/-- Python `prompt_name.replace("_", " ")`: with a one-character pattern
and a one-character replacement, `str.replace` substitutes character for
character. -/
def underscoresToSpaces (s : String) : String :=
  String.mk (s.data.map (fun c => if c == '_' then ' ' else c))

/-- One advertised tool: its identifier and description.  (The source also
attaches a JSON `inputSchema` — an empty-object schema for every tool but
`get_prompt_by_name`, which requires the string property `task_name`; no
claim concerns the schema and it is not modelled.) -/
structure Tool where
  name : String
  description : String
  deriving DecidableEq

/-- `list_tools` of the source: `list_available_prompts`, then one
`get_prompt_{name}` tool per catalog entry in catalog order, then
`get_prompt_by_name`. -/
def list_tools (fs : FS) : List Tool :=
  let available_prompts := get_available_prompts fs
  [⟨"list_available_prompts",
    "Lists all available prompt templates that can be fetched. Use this to discover what prompts are available."⟩]
  ++ available_prompts.map (fun prompt_name =>
      ⟨"get_prompt_" ++ prompt_name,
        "Fetches the '" ++ prompt_name ++ "' prompt template. This provides a structured template for "
          ++ underscoresToSpaces prompt_name ++ " tasks."⟩)
  ++ [⟨"get_prompt_by_name",
      "Fetches a specific prompt template by its task name. Use this when you know the exact name of the prompt you want."⟩]

example : is_safe_task_name "task_1" = true := by decide
example : is_safe_task_name "" = false := by decide
example : is_safe_task_name "a/b" = false := by decide
example : is_safe_task_name "a..b" = false := by decide
example : get_available_prompts ⟨true, true,
    [⟨"review_tasks.txt", true, true, "B"⟩, ⟨"create_prd.txt", true, true, "A"⟩]⟩ =
    ["create_prd", "review_tasks"] := by decide
example : call_tool ⟨true, true, []⟩ "get_prompt_" [] =
    [⟨"text", "Error: Invalid task name: "⟩] := by decide
example : call_tool ⟨true, true, []⟩ "get_prompt_by_name" [("task_name", "")] =
    [⟨"text", "Error: task_name parameter is required"⟩] := by decide
example : call_tool ⟨true, true, [⟨"create_prd.txt", true, true, "A"⟩]⟩
    "get_prompt_create_prd" [] = [⟨"text", "Prompt for 'create_prd':\n\nA"⟩] := by decide
example : (list_tools ⟨true, true, [⟨"by_name.txt", true, true, "S"⟩]⟩).map Tool.name =
    ["list_available_prompts", "get_prompt_by_name", "get_prompt_by_name"] := by decide
example : call_tool ⟨true, true, []⟩ "bogus_tool" [] =
    [⟨"text", "Error: Unknown tool 'bogus_tool'"⟩] := by decide

/-! ## Helper lemmas -/

theorem hasDotDot_iff_infix (l : List Char) : hasDotDot l = true ↔ ['.', '.'] <:+: l := by
  induction l with
  | nil =>
    rw [show hasDotDot [] = false from rfl]
    simp
  | cons c rest ih =>
    cases rest with
    | nil =>
      rw [show hasDotDot [c] = false from rfl]
      simp [List.infix_cons_iff]
    | cons c₂ rest₂ =>
      rw [show hasDotDot (c :: c₂ :: rest₂) =
            ((c == '.' && c₂ == '.') || hasDotDot (c₂ :: rest₂)) from rfl,
        List.infix_cons_iff]
      simp only [Bool.or_eq_true, Bool.and_eq_true, beq_iff_eq, ih,
        List.cons_prefix_cons, List.nil_prefix, and_true]
      constructor
      · rintro (⟨h1, h2⟩ | h)
        · exact .inl ⟨h1.symm, h2.symm⟩
        · exact .inr h
      · rintro (⟨h1, h2⟩ | h)
        · exact .inl ⟨h1.symm, h2.symm⟩
        · exact .inr h

theorem isWordChar_iff (c : Char) :
    isWordChar c = true ↔
      ('a' ≤ c ∧ c ≤ 'z') ∨ ('A' ≤ c ∧ c ≤ 'Z') ∨ ('0' ≤ c ∧ c ≤ '9') ∨ c = '_' := by
  simp only [isWordChar, Bool.or_eq_true, Bool.and_eq_true, decide_eq_true_eq, beq_iff_eq]
  tauto

theorem is_safe_iff (s : String) :
    is_safe_task_name s = true ↔
      s ≠ "" ∧ s.data.all isWordChar = true ∧ hasDotDot s.data = false := by
  unfold is_safe_task_name
  by_cases he : s.isEmpty = true
  · rw [if_pos he]
    have hs : s = "" := (String.isEmpty_iff s).mp he
    subst hs
    simp
  · have hne : s ≠ "" := fun h => he (by rw [h]; rfl)
    rw [if_neg he]
    cases hA : s.data.all isWordChar <;> cases hB : hasDotDot s.data <;>
      simp [hA, hB, hne]

/-! ## C1 -/

/-- C1: the Name Validator `is_safe_task_name` returns true exactly for the
non-empty strings all of whose characters lie in `[A-Za-z0-9_]` (the match
covering the entire string) and in which the two-character substring `..`
does not occur; in particular it rejects `""`, `"a/b"`, `"a..b"` and
accepts `"task_1"`. -/
theorem C1_validator_characterization :
    (∀ s : String, is_safe_task_name s = true ↔
        s ≠ "" ∧
        (∀ c ∈ s.data,
          ('a' ≤ c ∧ c ≤ 'z') ∨ ('A' ≤ c ∧ c ≤ 'Z') ∨ ('0' ≤ c ∧ c ≤ '9') ∨ c = '_') ∧
        ¬ ['.', '.'] <:+: s.data) ∧
    is_safe_task_name "" = false ∧ is_safe_task_name "a/b" = false ∧
    is_safe_task_name "a..b" = false ∧ is_safe_task_name "task_1" = true := by
  refine ⟨fun s => ?_, by decide, by decide, by decide, by decide⟩
  rw [is_safe_iff]
  constructor
  · rintro ⟨h1, h2, h3⟩
    refine ⟨h1, ?_, ?_⟩
    · intro c hc
      exact (isWordChar_iff c).mp (List.all_eq_true.mp h2 c hc)
    · rw [← hasDotDot_iff_infix, h3]
      simp
  · rintro ⟨h1, h2, h3⟩
    refine ⟨h1, ?_, ?_⟩
    · rw [List.all_eq_true]
      intro c hc
      exact (isWordChar_iff c).mpr (h2 c hc)
    · rw [← Bool.not_eq_true, hasDotDot_iff_infix]
      exact h3

theorem read_of_invalid (fs : FS) (name : String) (h : is_safe_task_name name = false) :
    read_prompt_content fs name = .error .invalidName := by
  unfold read_prompt_content
  rw [h]
  rfl

/-- The loader's complete case analysis: exactly one of the five outcomes. -/
theorem read_cases (fs : FS) (name : String) :
    (is_safe_task_name name = false ∧
      read_prompt_content fs name = .error .invalidName) ∨
    (is_safe_task_name name = true ∧ fileLookup fs name = none ∧
      read_prompt_content fs name = .error .notFound) ∨
    (is_safe_task_name name = true ∧ (∃ e, fileLookup fs name = some e ∧ e.isFile = false) ∧
      read_prompt_content fs name = .error .notFound) ∨
    (is_safe_task_name name = true ∧
      (∃ e, fileLookup fs name = some e ∧ e.isFile = true ∧ e.readable = true ∧
        read_prompt_content fs name = .ok e.content)) ∨
    (is_safe_task_name name = true ∧
      (∃ e, fileLookup fs name = some e ∧ e.isFile = true ∧ e.readable = false) ∧
      read_prompt_content fs name = .error .ioError) := by
  cases hs : is_safe_task_name name with
  | false => exact .inl ⟨rfl, read_of_invalid fs name hs⟩
  | true =>
    cases hf : fileLookup fs name with
    | none =>
      refine .inr (.inl ⟨rfl, rfl, ?_⟩)
      simp [read_prompt_content, hs, hf]
    | some e =>
      cases hef : e.isFile with
      | false =>
        refine .inr (.inr (.inl ⟨rfl, ⟨e, rfl, hef⟩, ?_⟩))
        simp [read_prompt_content, hs, hf, hef]
      | true =>
        cases her : e.readable with
        | true =>
          refine .inr (.inr (.inr (.inl ⟨rfl, e, rfl, hef, her, ?_⟩)))
          simp [read_prompt_content, hs, hf, hef, her]
        | false =>
          refine .inr (.inr (.inr (.inr ⟨rfl, ⟨e, rfl, hef, her⟩, ?_⟩)))
          simp [read_prompt_content, hs, hf, hef, her]

/-! ## C2 -/

/-- C2: `read_prompt_content` fails with exactly one of three mutually
exclusive and exhaustive failure kinds: invalid-identifier exactly when the
validator rejects the name (and then the result does not depend on the
filesystem at all — e.g. for `"../etc/passwd"`); not-found exactly when the
name is valid but no entry `<name>.txt` exists or the entry is not a
regular file (e.g. `"missing_task"` in an empty directory); io-error
exactly when the regular file exists but cannot be read. -/
theorem C2_loader_failure_taxonomy :
    (∀ fs name, read_prompt_content fs name = .error .invalidName ↔
        is_safe_task_name name = false) ∧
    (∀ fs fs₂, read_prompt_content fs "../etc/passwd" = .error .invalidName ∧
        read_prompt_content fs "../etc/passwd" = read_prompt_content fs₂ "../etc/passwd") ∧
    (∀ fs name, read_prompt_content fs name = .error .notFound ↔
        is_safe_task_name name = true ∧
          (fileLookup fs name = none ∨ ∃ e, fileLookup fs name = some e ∧ e.isFile = false)) ∧
    (∀ fs name, read_prompt_content fs name = .error .ioError ↔
        is_safe_task_name name = true ∧
          ∃ e, fileLookup fs name = some e ∧ e.isFile = true ∧ e.readable = false) ∧
    read_prompt_content ⟨true, true, []⟩ "missing_task" = .error .notFound ∧
    (∀ fs name, (∃ c, read_prompt_content fs name = .ok c) ∨
        read_prompt_content fs name = .error .invalidName ∨
        read_prompt_content fs name = .error .notFound ∨
        read_prompt_content fs name = .error .ioError) := by
  refine ⟨?_, ?_, ?_, ?_, rfl, ?_⟩
  · intro fs name
    rcases read_cases fs name with ⟨hs, hr⟩ | ⟨hs, hf, hr⟩ | ⟨hs, ⟨e, hf, hef⟩, hr⟩ |
      ⟨hs, e, hf, hef, her, hr⟩ | ⟨hs, ⟨e, hf, hef, her⟩, hr⟩ <;>
      simp [hr, hs]
  · intro fs fs₂
    have h := read_of_invalid fs "../etc/passwd" (by decide)
    exact ⟨h, h.trans (read_of_invalid fs₂ "../etc/passwd" (by decide)).symm⟩
  · intro fs name
    rcases read_cases fs name with ⟨hs, hr⟩ | ⟨hs, hf, hr⟩ | ⟨hs, ⟨e, hf, hef⟩, hr⟩ |
      ⟨hs, e, hf, hef, her, hr⟩ | ⟨hs, ⟨e, hf, hef, her⟩, hr⟩ <;>
      simp_all
  · intro fs name
    rcases read_cases fs name with ⟨hs, hr⟩ | ⟨hs, hf, hr⟩ | ⟨hs, ⟨e, hf, hef⟩, hr⟩ |
      ⟨hs, e, hf, hef, her, hr⟩ | ⟨hs, ⟨e, hf, hef, her⟩, hr⟩ <;>
      simp_all
  · intro fs name
    rcases read_cases fs name with ⟨hs, hr⟩ | ⟨hs, hf, hr⟩ | ⟨hs, ⟨e, hf, hef⟩, hr⟩ |
      ⟨hs, e, hf, hef, her, hr⟩ | ⟨hs, ⟨e, hf, hef, her⟩, hr⟩
    · exact .inr (.inl hr)
    · exact .inr (.inr (.inl hr))
    · exact .inr (.inr (.inl hr))
    · exact .inl ⟨e.content, hr⟩
    · exact .inr (.inr (.inr hr))

/-! ## C6 -/

/-- C6: on a valid name whose backing regular file exists and is readable,
the loader returns exactly the stored text, unmodified (the model carries
file contents as already-decoded text, so UTF-8 decoding is implicit);
`load("create_prd")` returns the exact contents of `create_prd.txt`; and
the loader is a pure function of the filesystem snapshot, so repeated
calls against an unchanged file return identical content. -/
theorem C6_loader_returns_contents_verbatim :
    (∀ fs name c, read_prompt_content fs name = .ok c ↔
        is_safe_task_name name = true ∧
          ∃ e, fileLookup fs name = some e ∧ e.isFile = true ∧ e.readable = true ∧
            c = e.content) ∧
    read_prompt_content ⟨true, true, [⟨"create_prd.txt", true, true,
        "# Create PRD\nFull template text"⟩]⟩ "create_prd" =
      .ok "# Create PRD\nFull template text" ∧
    (∀ fs name, read_prompt_content fs name = read_prompt_content fs name) := by
  refine ⟨?_, rfl, fun fs name => rfl⟩
  intro fs name c
  rcases read_cases fs name with ⟨hs, hr⟩ | ⟨hs, hf, hr⟩ | ⟨hs, ⟨e, hf, hef⟩, hr⟩ |
    ⟨hs, e, hf, hef, her, hr⟩ | ⟨hs, ⟨e, hf, hef, her⟩, hr⟩
  · simp_all
  · simp_all
  · simp_all
  · simp_all
    exact eq_comm
  · simp_all

theorem charListLe_cons (a b : Char) (as bs : List Char) :
    charListLe (a :: as) (b :: bs) =
      if a < b then true else if b < a then false else charListLe as bs := rfl

theorem charListLe_total (as bs : List Char) :
    charListLe as bs = true ∨ charListLe bs as = true := by
  induction as generalizing bs with
  | nil => exact .inl rfl
  | cons a as ih =>
    cases bs with
    | nil => exact .inr rfl
    | cons b bs =>
      rcases lt_trichotomy a b with h | h | h
      · left
        rw [charListLe_cons, if_pos h]
      · subst h
        rcases ih bs with h2 | h2
        · left
          rw [charListLe_cons, if_neg (lt_irrefl a), if_neg (lt_irrefl a)]
          exact h2
        · right
          rw [charListLe_cons, if_neg (lt_irrefl a), if_neg (lt_irrefl a)]
          exact h2
      · right
        rw [charListLe_cons, if_pos h]

theorem charListLe_trans {as bs cs : List Char} (h1 : charListLe as bs = true)
    (h2 : charListLe bs cs = true) : charListLe as cs = true := by
  induction as generalizing bs cs with
  | nil => rfl
  | cons a as ih =>
    cases bs with
    | nil => simp [show charListLe (a :: as) [] = false from rfl] at h1
    | cons b bs =>
      cases cs with
      | nil => simp [show charListLe (b :: bs) [] = false from rfl] at h2
      | cons c cs =>
        rw [charListLe_cons] at h1 h2 ⊢
        by_cases hab : a < b
        · by_cases hbc : b < c
          · rw [if_pos (lt_trans hab hbc)]
          · by_cases hcb : c < b
            · rw [if_neg hbc, if_pos hcb] at h2
              simp at h2
            · have hbc2 : b = c := le_antisymm (not_lt.mp hcb) (not_lt.mp hbc)
              subst hbc2
              rw [if_pos hab]
        · by_cases hba : b < a
          · rw [if_neg hab, if_pos hba] at h1
            simp at h1
          · have hab2 : a = b := le_antisymm (not_lt.mp hba) (not_lt.mp hab)
            subst hab2
            rw [if_neg hab, if_neg hba] at h1
            by_cases hac : a < c
            · rw [if_pos hac]
            · by_cases hca : c < a
              · rw [if_neg hac, if_pos hca] at h2
                simp at h2
              · rw [if_neg hac, if_neg hca] at h2 ⊢
                exact ih h1 h2

theorem charListLe_antisymm : ∀ {as bs : List Char}, charListLe as bs = true →
    charListLe bs as = true → as = bs := by
  intro as
  induction as with
  | nil =>
    intro bs h1 h2
    cases bs with
    | nil => rfl
    | cons b bs => simp [show charListLe (b :: bs) [] = false from rfl] at h2
  | cons a as ih =>
    intro bs h1 h2
    cases bs with
    | nil => simp [show charListLe (a :: as) [] = false from rfl] at h1
    | cons b bs =>
      rw [charListLe_cons] at h1 h2
      by_cases hab : a < b
      · rw [if_neg (asymm hab), if_pos hab] at h2
        simp at h2
      · by_cases hba : b < a
        · rw [if_neg hab, if_pos hba] at h1
          simp at h1
        · have hab2 : a = b := le_antisymm (not_lt.mp hba) (not_lt.mp hab)
          subst hab2
          rw [if_neg hab, if_neg hab] at h1
          rw [if_neg hab, if_neg hab] at h2
          rw [ih h1 h2]

instance : IsTotal String strLeR := ⟨fun a b => charListLe_total a.data b.data⟩

instance : IsTrans String strLeR := ⟨fun _ _ _ h1 h2 => charListLe_trans h1 h2⟩

instance : IsAntisymm String strLeR := by
  refine ⟨fun a b h1 h2 => ?_⟩
  rcases a with ⟨la⟩
  rcases b with ⟨lb⟩
  exact congrArg String.mk (charListLe_antisymm h1 h2)

/-- Sorting by `strLeR` is a function of the input's multiset: any two
permuted inputs sort to the same list. -/
theorem insertionSort_strLeR_perm_eq {l l₂ : List String} (h : l.Perm l₂) :
    List.insertionSort strLeR l = List.insertionSort strLeR l₂ :=
  List.eq_of_perm_of_sorted
    ((List.perm_insertionSort strLeR l).trans (h.trans (List.perm_insertionSort strLeR l₂).symm))
    (List.sorted_insertionSort strLeR l) (List.sorted_insertionSort strLeR l₂)

theorem is_safe_eq_false_of_bad_char {s : String} {c : Char} (hc : c ∈ s.data)
    (hw : isWordChar c = false) : is_safe_task_name s = false := by
  cases h : is_safe_task_name s with
  | false => rfl
  | true =>
    rcases (is_safe_iff s).mp h with ⟨-, h2, -⟩
    have hcw := List.all_eq_true.mp h2 c hc
    rw [hw] at hcw
    simp at hcw

/-- A hidden `*.txt` name (one `glob` skips) could never contribute a
valid catalog entry anyway: its stem is empty or starts with `.`. -/
theorem stem_hidden_not_safe {name : String} (hTxt : endsWithTxt name = true)
    (hHid : isHiddenName name = true) : is_safe_task_name (stem name) = false := by
  rcases name with ⟨l⟩
  obtain ⟨t, ht⟩ : ['.', 't', 'x', 't'] <:+ l := List.isSuffixOf_iff_suffix.mp hTxt
  subst ht
  have hstem : stem (String.mk (t ++ ['.', 't', 'x', 't'])) = String.mk t := by
    show String.mk ((t ++ ['.', 't', 'x', 't']).take
      ((t ++ ['.', 't', 'x', 't']).length - 4)) = String.mk t
    rw [List.length_append, show (['.', 't', 'x', 't'] : List Char).length = 4 from rfl,
      Nat.add_sub_cancel, List.take_left]
  rw [hstem]
  cases t with
  | nil => rfl
  | cons c t2 =>
    have hc : c = '.' := eq_of_beq hHid
    subst hc
    exact is_safe_eq_false_of_bad_char (List.mem_cons_self _ _) (by decide)

/-! ## C3 -/

/-- C3 counterexample: a subdirectory named `sub_dir.txt` is listed by
`get_available_prompts` (glob does not test for regular files), so the
catalog is not "exactly the base names of the immediate-child `.txt`
files". -/
theorem C3_counterexample_directory_entry :
    get_available_prompts ⟨true, true, [⟨"sub_dir.txt", false, true, ""⟩]⟩ = ["sub_dir"] ∧
    catalog_spec_files ⟨true, true, [⟨"sub_dir.txt", false, true, ""⟩]⟩ = [] ∧
    get_available_prompts ⟨true, true, [⟨"sub_dir.txt", false, true, ""⟩]⟩ ≠
      catalog_spec_files ⟨true, true, [⟨"sub_dir.txt", false, true, ""⟩]⟩ :=
  ⟨rfl, rfl, by decide⟩

theorem catalog_eq_spec_entries (fs : FS) :
    get_available_prompts fs = catalog_spec_entries fs := by
  simp only [get_available_prompts, catalog_spec_entries, globTxt]
  by_cases hflag : (fs.dirExists && fs.dirIsDir) = true
  · rw [if_pos hflag, if_pos hflag]
    congr 1
    rw [List.filter_map, List.filter_map, List.filter_filter, List.filter_filter]
    refine congrArg (List.map _) (List.filter_congr ?_)
    intro e he
    cases ht : endsWithTxt e.name with
    | false => simp [Function.comp, ht]
    | true =>
      cases hh : isHiddenName e.name with
      | false => simp [Function.comp, ht, hh]
      | true => simp [Function.comp, ht, hh, stem_hidden_not_safe ht hh]
  · rw [if_neg hflag, if_neg hflag]

/-- C3 (amended): when the backing directory is absent or not a directory
the catalog is empty and never fails; otherwise it consists of exactly the
base names (extension stripped) of the immediate-child `.txt` *entries* —
glob does not check for regular files, so a subdirectory named `*.txt` is
listed too — that pass the Name Validator, sorted lexicographically
ascending; a directory holding `create_prd.txt` and `review_tasks.txt`
yields exactly `["create_prd", "review_tasks"]`; and the output is
independent of filesystem iteration order. -/
theorem C3_catalog_amended :
    (∀ (b : Bool) (l : List DirEntry),
        get_available_prompts ⟨false, b, l⟩ = [] ∧ get_available_prompts ⟨b, false, l⟩ = []) ∧
    (∀ fs, get_available_prompts fs = catalog_spec_entries fs) ∧
    get_available_prompts ⟨true, true,
        [⟨"review_tasks.txt", true, true, "B"⟩, ⟨"create_prd.txt", true, true, "A"⟩]⟩ =
      ["create_prd", "review_tasks"] ∧
    (∀ (pexists pdir : Bool) (l l₂ : List DirEntry), l.Perm l₂ →
        get_available_prompts ⟨pexists, pdir, l⟩ = get_available_prompts ⟨pexists, pdir, l₂⟩) := by
  refine ⟨?_, catalog_eq_spec_entries, by decide, ?_⟩
  · intro b l
    constructor
    · simp [get_available_prompts]
    · simp [get_available_prompts]
  · intro pexists pdir l l₂ h
    simp only [get_available_prompts, globTxt]
    by_cases hflag : (pexists && pdir) = true
    · rw [if_pos hflag, if_pos hflag]
      exact insertionSort_strLeR_perm_eq (((h.filter _).map _).filter _)
    · rw [if_neg hflag, if_neg hflag]

theorem mem_get_available_safe {fs : FS} {p : String}
    (hp : p ∈ get_available_prompts fs) : is_safe_task_name p = true := by
  unfold get_available_prompts at hp
  by_cases hflag : (fs.dirExists && fs.dirIsDir) = true
  · rw [if_pos hflag] at hp
    have hp2 := (List.perm_insertionSort strLeR _).mem_iff.mp hp
    exact List.of_mem_filter hp2
  · rw [if_neg hflag] at hp
    cases hp

theorem string_data_append (a b : String) : (a ++ b).data = a.data ++ b.data := by
  rcases a with ⟨la⟩
  rcases b with ⟨lb⟩
  rfl

theorem string_append_assoc (a b c : String) : a ++ b ++ c = a ++ (b ++ c) := by
  rcases a with ⟨la⟩
  rcases b with ⟨lb⟩
  rcases c with ⟨lc⟩
  show String.mk (la ++ lb ++ lc) = String.mk (la ++ (lb ++ lc))
  rw [List.append_assoc]

theorem fetch_error_eval (fs : FS) (t : String) (k : LoadErrorKind)
    (h : read_prompt_content fs t = .error k) :
    fetchPromptText fs t = [⟨"text", "Error: " ++ loadErrorMessage k t⟩] := by
  unfold fetchPromptText
  rw [h]

theorem fetch_ok_eval (fs : FS) (t c : String) (h : read_prompt_content fs t = .ok c) :
    fetchPromptText fs t = [⟨"text", "Prompt for '" ++ t ++ "':\n\n" ++ c⟩] := by
  unfold fetchPromptText
  rw [h]

theorem fetchPromptText_shape (fs : FS) (t : String) :
    ∃ s, fetchPromptText fs t = [⟨"text", s⟩] := by
  unfold fetchPromptText
  cases read_prompt_content fs t with
  | ok c => exact ⟨_, rfl⟩
  | error e => exact ⟨_, rfl⟩

/-- Evaluating the `get_prompt_by_name` branch of `call_tool` on any
argument dictionary. -/
theorem call_by_name_eval (fs : FS) (args : List (String × String)) :
    call_tool fs "get_prompt_by_name" args =
      match args.lookup "task_name" with
      | none => [⟨"text", "Error: task_name parameter is required"⟩]
      | some t =>
        if t == "" then [⟨"text", "Error: task_name parameter is required"⟩]
        else fetchPromptText fs t := by
  cases h : args.lookup "task_name" with
  | none =>
    unfold call_tool call_tool_body
    rw [h]
    rfl
  | some t =>
    unfold call_tool call_tool_body
    rw [h]
    show dispatcher_boundary
        (if (t == "") = true then
          Except.ok [⟨"text", "Error: task_name parameter is required"⟩]
        else Except.ok (fetchPromptText fs t)) =
      if (t == "") = true then [⟨"text", "Error: task_name parameter is required"⟩]
      else fetchPromptText fs t
    cases ht : (t == "") with
    | true => rfl
    | false => rfl

/-! ## C4 -/

/-- C4 counterexample: the identifier consisting of the bare prefix
`get_prompt_` (not a generic operation name) strips to the empty task
name, and the dispatcher then answers with the invalid-task-name error —
not with what the `get_prompt_by_name` branch produces for the recovered
name, which is the missing-parameter error. -/
theorem C4_counterexample_bare_prefix_name :
    strStartsWith "get_prompt_" "get_prompt_" = true ∧
    "get_prompt_" ≠ "get_prompt_by_name" ∧
    "get_prompt_" ≠ "list_available_prompts" ∧
    dropChars "get_prompt_" "get_prompt_".length = "" ∧
    call_tool ⟨true, true, []⟩ "get_prompt_" [] =
      [⟨"text", "Error: Invalid task name: "⟩] ∧
    call_tool ⟨true, true, []⟩ "get_prompt_by_name"
        [("task_name", dropChars "get_prompt_" "get_prompt_".length)] =
      [⟨"text", "Error: task_name parameter is required"⟩] ∧
    call_tool ⟨true, true, []⟩ "get_prompt_" [] ≠
      call_tool ⟨true, true, []⟩ "get_prompt_by_name"
        [("task_name", dropChars "get_prompt_" "get_prompt_".length)] :=
  ⟨rfl, by decide, by decide, rfl, rfl, rfl, by decide⟩

/-- C4 (amended): for every invoked identifier that begins with
`get_prompt_`, is not a generic operation name, and whose stripped suffix
is non-empty, the dispatcher produces exactly what the
`get_prompt_by_name` branch produces for the recovered name; and every
identifier matching neither a generic operation nor the prefix yields the
`Unknown tool '{name}'` error.  (When the stripped suffix is empty — the
bare-prefix identifier — the two branches differ, as the counterexample
records: prefix stripping answers `Error: Invalid task name: `, the
generic branch demands the parameter.) -/
theorem C4_dispatch_amended :
    (∀ (fs : FS) (args : List (String × String)) (name : String),
        strStartsWith name "get_prompt_" = true →
        name ≠ "get_prompt_by_name" →
        dropChars name "get_prompt_".length ≠ "" →
        call_tool fs name args =
          call_tool fs "get_prompt_by_name"
            [("task_name", dropChars name "get_prompt_".length)]) ∧
    (∀ (fs : FS) (args : List (String × String)) (name : String),
        strStartsWith name "get_prompt_" = false →
        name ≠ "list_available_prompts" →
        call_tool fs name args = [⟨"text", "Error: Unknown tool '" ++ name ++ "'"⟩]) := by
  constructor
  · intro fs args name h1 h2 h3
    have hl : name ≠ "list_available_prompts" := by
      intro he
      rw [he] at h1
      exact absurd h1 (by decide)
    rw [call_by_name_eval]
    show call_tool fs name args =
      if (dropChars name "get_prompt_".length == "") = true then
        [⟨"text", "Error: task_name parameter is required"⟩]
      else fetchPromptText fs (dropChars name "get_prompt_".length)
    rw [show ((dropChars name "get_prompt_".length == "") : Bool) = false from
      beq_eq_false_iff_ne.mpr h3]
    simp only [call_tool, call_tool_body, dispatcher_boundary, beq_eq_false_iff_ne.mpr hl,
      beq_eq_false_iff_ne.mpr h2, h1, Bool.false_eq_true, if_false, if_true]
  · intro fs args name h1 h2
    have hby : name ≠ "get_prompt_by_name" := by
      intro he
      rw [he] at h1
      exact absurd h1 (by decide)
    simp only [call_tool, call_tool_body, dispatcher_boundary, beq_eq_false_iff_ne.mpr h2,
      beq_eq_false_iff_ne.mpr hby, h1, Bool.false_eq_true, if_false]

/-! ## C5 -/

/-- C5: the `get_prompt_by_name` branch returns the user-facing
missing-parameter text when the `task_name` argument is absent or empty
(a normal text result, not a protocol fault — the dispatcher returns, it
does not raise); otherwise it maps the loader's failure kinds to
`Error: Invalid task name: {name}` / `Error: Prompt not found for task:
{name}` / `Error: Error reading prompt file for task: {name}` (the
`Error: ` lead-in is the branch's uniform `f"Error: {str(e)}"`
presentation of the exception message), and on success returns the
content under the `Prompt for '{name}':` header. -/
theorem C5_fetch_by_name_contract :
    (∀ (fs : FS) (args : List (String × String)), args.lookup "task_name" = none →
        call_tool fs "get_prompt_by_name" args =
          [⟨"text", "Error: task_name parameter is required"⟩]) ∧
    (∀ (fs : FS) (args : List (String × String)), args.lookup "task_name" = some "" →
        call_tool fs "get_prompt_by_name" args =
          [⟨"text", "Error: task_name parameter is required"⟩]) ∧
    (∀ (fs : FS) (args : List (String × String)) (t : String),
        args.lookup "task_name" = some t → t ≠ "" →
        read_prompt_content fs t = .error .invalidName →
        call_tool fs "get_prompt_by_name" args =
          [⟨"text", "Error: Invalid task name: " ++ t⟩]) ∧
    (∀ (fs : FS) (args : List (String × String)) (t : String),
        args.lookup "task_name" = some t → t ≠ "" →
        read_prompt_content fs t = .error .notFound →
        call_tool fs "get_prompt_by_name" args =
          [⟨"text", "Error: Prompt not found for task: " ++ t⟩]) ∧
    (∀ (fs : FS) (args : List (String × String)) (t : String),
        args.lookup "task_name" = some t → t ≠ "" →
        read_prompt_content fs t = .error .ioError →
        call_tool fs "get_prompt_by_name" args =
          [⟨"text", "Error: Error reading prompt file for task: " ++ t⟩]) ∧
    (∀ (fs : FS) (args : List (String × String)) (t c : String),
        args.lookup "task_name" = some t → t ≠ "" →
        read_prompt_content fs t = .ok c →
        call_tool fs "get_prompt_by_name" args =
          [⟨"text", "Prompt for '" ++ t ++ "':\n\n" ++ c⟩]) := by
  have hbranch : ∀ (fs : FS) (args : List (String × String)) (t : String),
      args.lookup "task_name" = some t → t ≠ "" →
      call_tool fs "get_prompt_by_name" args = fetchPromptText fs t := by
    intro fs args t hl ht
    rw [call_by_name_eval, hl]
    show (if (t == "") = true then [⟨"text", "Error: task_name parameter is required"⟩]
      else fetchPromptText fs t) = fetchPromptText fs t
    rw [show ((t == "") : Bool) = false from beq_eq_false_iff_ne.mpr ht]
    rfl
  refine ⟨?_, ?_, ?_, ?_, ?_, ?_⟩
  · intro fs args hl
    rw [call_by_name_eval, hl]
  · intro fs args hl
    rw [call_by_name_eval, hl]
    rfl
  · intro fs args t hl ht hr
    rw [hbranch fs args t hl ht, fetch_error_eval fs t _ hr]
    show [(⟨"text", "Error: " ++ ("Invalid task name: " ++ t)⟩ : TextContent)] = _
    rw [← string_append_assoc]
    rfl
  · intro fs args t hl ht hr
    rw [hbranch fs args t hl ht, fetch_error_eval fs t _ hr]
    show [(⟨"text", "Error: " ++ ("Prompt not found for task: " ++ t)⟩ : TextContent)] = _
    rw [← string_append_assoc]
    rfl
  · intro fs args t hl ht hr
    rw [hbranch fs args t hl ht, fetch_error_eval fs t _ hr]
    show [(⟨"text", "Error: " ++ ("Error reading prompt file for task: " ++ t)⟩ : TextContent)] = _
    rw [← string_append_assoc]
    rfl
  · intro fs args t c hl ht hr
    rw [hbranch fs args t hl ht, fetch_ok_eval fs t c hr]

/-! ## C7 -/

/-- C7: the dispatcher always returns a well-formed response — for every
tool name and argument dictionary, `call_tool` returns exactly one text
content block — and its outermost boundary converts any exception message
that would escape the branches into the `Unexpected error: {message}`
text instead of crashing.  (In this embedding the branches never raise,
so the boundary's error arm is exercised on an arbitrary message.) -/
theorem C7_dispatcher_always_responds :
    (∀ (fs : FS) (name : String) (args : List (String × String)),
        ∃ t, call_tool fs name args = [⟨"text", t⟩]) ∧
    (∀ msg, dispatcher_boundary (.error msg) =
        [⟨"text", "Unexpected error: " ++ msg⟩]) := by
  refine ⟨?_, fun msg => rfl⟩
  intro fs name args
  unfold call_tool call_tool_body
  by_cases h1 : (name == "list_available_prompts") = true
  · rw [if_pos h1]
    exact ⟨_, rfl⟩
  · rw [if_neg h1]
    by_cases h2 : (name == "get_prompt_by_name") = true
    · rw [if_pos h2]
      cases hargs : args.lookup "task_name" with
      | none => exact ⟨_, rfl⟩
      | some t =>
        show ∃ s, dispatcher_boundary
          (if (t == "") = true then
            Except.ok [⟨"text", "Error: task_name parameter is required"⟩]
          else Except.ok (fetchPromptText fs t)) = [⟨"text", s⟩]
        by_cases ht : (t == "") = true
        · rw [if_pos ht]
          exact ⟨_, rfl⟩
        · rw [if_neg ht]
          obtain ⟨s, hs⟩ := fetchPromptText_shape fs t
          rw [show dispatcher_boundary (Except.ok (fetchPromptText fs t)) =
            fetchPromptText fs t from rfl, hs]
          exact ⟨s, rfl⟩
    · rw [if_neg h2]
      by_cases h3 : strStartsWith name "get_prompt_" = true
      · rw [if_pos h3]
        obtain ⟨s, hs⟩ := fetchPromptText_shape fs (dropChars name "get_prompt_".length)
        rw [show dispatcher_boundary
          (Except.ok (fetchPromptText fs (dropChars name "get_prompt_".length))) =
          fetchPromptText fs (dropChars name "get_prompt_".length) from rfl, hs]
        exact ⟨s, rfl⟩
      · rw [if_neg h3]
        exact ⟨_, rfl⟩

/-! ## C8 -/

/-- C8: the tool identifier `get_prompt_by_name` is always handled by the
generic fetch-by-parameter branch, never by prefix stripping: even when a
resource `by_name.txt` exists — so `list_tools` advertises a synthesized
tool whose identifier collides with the generic one — calling
`get_prompt_by_name` without a `task_name` argument yields the
missing-parameter error, never the contents of `by_name.txt`. -/
theorem C8_generic_by_name_shadows_synthesized :
    (∀ (fs : FS) (args : List (String × String)), args.lookup "task_name" = none →
        call_tool fs "get_prompt_by_name" args =
          [⟨"text", "Error: task_name parameter is required"⟩]) ∧
    get_available_prompts ⟨true, true, [⟨"by_name.txt", true, true, "SECRET"⟩]⟩ =
      ["by_name"] ∧
    (list_tools ⟨true, true, [⟨"by_name.txt", true, true, "SECRET"⟩]⟩).map Tool.name =
      ["list_available_prompts", "get_prompt_by_name", "get_prompt_by_name"] ∧
    call_tool ⟨true, true, [⟨"by_name.txt", true, true, "SECRET"⟩]⟩
        "get_prompt_by_name" [] =
      [⟨"text", "Error: task_name parameter is required"⟩] ∧
    call_tool ⟨true, true, [⟨"by_name.txt", true, true, "SECRET"⟩]⟩
        "get_prompt_by_name" [] ≠
      [⟨"text", "Prompt for 'by_name':\n\nSECRET"⟩] := by
  refine ⟨?_, rfl, rfl, rfl, by decide⟩
  intro fs args h
  rw [call_by_name_eval, h]

/-! ## C9 -/

/-- C9: invoking the bare prefix `get_prompt_` recovers the empty task
name and answers with the invalid-identifier error text
`Error: Invalid task name: ` — not the unknown-tool error and not the
missing-parameter error. -/
theorem C9_bare_prefix_is_invalid_name :
    (∀ (fs : FS) (args : List (String × String)),
        call_tool fs "get_prompt_" args = [⟨"text", "Error: Invalid task name: "⟩]) ∧
    (∀ (fs : FS) (args : List (String × String)),
        call_tool fs "get_prompt_" args ≠
          [⟨"text", "Error: Unknown tool 'get_prompt_'"⟩]) ∧
    (∀ (fs : FS) (args : List (String × String)),
        call_tool fs "get_prompt_" args ≠
          [⟨"text", "Error: task_name parameter is required"⟩]) := by
  refine ⟨fun fs args => rfl, ?_, ?_⟩
  · intro fs args h
    rw [show call_tool fs "get_prompt_" args =
      [⟨"text", "Error: Invalid task name: "⟩] from rfl] at h
    exact absurd h (by decide)
  · intro fs args h
    rw [show call_tool fs "get_prompt_" args =
      [⟨"text", "Error: Invalid task name: "⟩] from rfl] at h
    exact absurd h (by decide)

/-! ## C10 -/

/-- C10: every `list_tools` result holds exactly (number of catalog
entries) + 2 tools — `list_available_prompts` first, `get_prompt_by_name`
last, and in between one `get_prompt_{name}` tool per catalog entry in
catalog (sorted) order — and every catalog entry passes the Name
Validator, so every synthesized identifier's suffix after the prefix is a
validator-accepted name. -/
theorem C10_tool_listing_shape :
    (∀ fs, (list_tools fs).length = (get_available_prompts fs).length + 2) ∧
    (∀ fs, (list_tools fs).head?.map Tool.name = some "list_available_prompts") ∧
    (∀ fs, ((list_tools fs).getLast?).map Tool.name = some "get_prompt_by_name") ∧
    (∀ fs, (((list_tools fs).drop 1).take (get_available_prompts fs).length).map Tool.name =
        (get_available_prompts fs).map (fun p => "get_prompt_" ++ p)) ∧
    (∀ fs, (get_available_prompts fs).all is_safe_task_name = true) ∧
    (∀ p : String, dropChars ("get_prompt_" ++ p) "get_prompt_".length = p) := by
  refine ⟨?_, fun fs => rfl, ?_, ?_, ?_, ?_⟩
  · intro fs
    simp only [list_tools, List.length_append, List.length_map, List.length_cons,
      List.length_nil]
    omega
  · intro fs
    simp only [list_tools]
    rw [List.getLast?_concat]
    rfl
  · intro fs
    simp only [list_tools]
    rw [show ∀ (x y : List Tool) (t : Tool), (([t] ++ x) ++ y).drop 1 = x ++ y from
      fun x y t => rfl]
    rw [List.take_left' (by rw [List.length_map]), List.map_map]
    rfl
  · intro fs
    rw [List.all_eq_true]
    intro p hp
    exact mem_get_available_safe hp
  · intro p
    unfold dropChars
    rw [string_data_append,
      List.drop_left' (show ("get_prompt_".data).length = "get_prompt_".length from rfl)]
